import Mathlib

/-!
Shallow embedding of src/server.js (a socket.io signaling server).

The module-level state of the server is
  rooms      : Map(roomId -> Map(socketId -> participant))
  roomAdmins : Map(roomId -> Set(adminSocketId))
plus per-connection local state socket.data = { role, roomId, userId }.

JavaScript Maps iterate in insertion order, so they are modelled as
association lists whose set-operation replaces the first binding in place
and otherwise appends; JavaScript Sets are modelled as duplicate-free lists
in insertion order.  Optional / possibly-absent JS values are Option;
JS string truthiness (undefined and "" are falsy) is the function truthy.
Date.now() is passed in explicitly as a Nat parameter.  Outbound
socket.io emissions are collected as a list of Msg values in emission
order; the roomId argument of broadcastAdminUpdate is carried on the
roomUpdate message so that statements can speak about "the broadcast for
room R" (the JS payload itself is just the list).
-/

namespace Server

/-- Truthiness of an optional JS string: undefined and the empty string are falsy. -/
def truthy : Option String → Bool
  | none => false
  | some s => !(s == "")

/-- Double negation coercion of an optional JS boolean, as in the expression !!allow. -/
def bangbang : Option Bool → Bool
  | none => false
  | some b => b

/-- Lookup in a JS Map modelled as an association list (first binding wins). -/
def mapGet (m : List (String × α)) (k : String) : Option α :=
  (m.find? (fun kv => kv.1 == k)).map (fun kv => kv.2)

/-- JS Map.set: replace the first binding of the key in place, else append. -/
def mapSet (m : List (String × α)) (k : String) (v : α) : List (String × α) :=
  match m with
  | [] => [(k, v)]
  | kv :: rest => if kv.1 == k then (k, v) :: rest else kv :: mapSet rest k v

/-- JS Map.delete: remove the binding of the key. -/
def mapDelete (m : List (String × α)) (k : String) : List (String × α) :=
  m.filter (fun kv => !(kv.1 == k))

/-- JS Set.add: append unless already present (insertion order preserved). -/
def setAdd (s : List String) (x : String) : List String :=
  if s.contains x then s else s ++ [x]

/-- JS Set.delete: remove the element. -/
def setDelete (s : List String) (x : String) : List String :=
  s.filter (fun y => !(y == x))

/-- Participant record: { userId, displayName, streamAllowed, lastSeen }.
userId and displayName may be absent (a heartbeat-created record has neither);
an absent streamAllowed is indistinguishable from false in every read, so it
is a plain Bool defaulting to false. -/
structure Participant where
  userId : Option String
  displayName : Option String
  streamAllowed : Bool
  lastSeen : Nat
deriving DecidableEq, Repr

/-- Patch argument of upsertParticipant: fields present in the JS patch object.
The spread { ...prev, ...patch } overwrites exactly the fields the patch carries. -/
structure Patch where
  userId : Option String
  displayName : Option String
  streamAllowed : Option Bool
deriving DecidableEq, Repr

/-- Rendered element of listStreamEnabledParticipants:
{ socketId, userId, displayName, lastSeen }. -/
structure Entry where
  socketId : String
  userId : Option String
  displayName : Option String
  lastSeen : Nat
deriving DecidableEq, Repr

/-- The two module-level maps of server.js. -/
structure Store where
  rooms : List (String × List (String × Participant))
  roomAdmins : List (String × List String)
deriving DecidableEq, Repr

/-- Role label stored in socket.data.role. -/
inductive Role where
  | participant
  | admin
deriving DecidableEq, Repr

/-- Per-connection local state socket.data = { role, roomId, userId }, all initially absent. -/
structure ConnData where
  role : Option Role
  roomId : Option String
  userId : Option String
deriving DecidableEq, Repr

/-- Destination of an emission: a socket id (possibly undefined, as in io.to(to)
with a missing payload field), the admin group of a room, or the room group. -/
inductive Dest where
  | sock : Option String → Dest
  | adminGroup : String → Dest
  | roomGroup : String → Dest
deriving DecidableEq, Repr

/-- Outbound event payloads.  roomUpdate carries the room whose list was
computed (ghost information identifying the broadcast; the JS payload is the
list alone).  fromSid is the JS field named from. -/
inductive OutEvent where
  | adminList : String → List String → OutEvent
  | roomUpdate : String → List Entry → OutEvent
  | participantStreamAllowed : String → String → Bool → OutEvent
  | adminOnline : String → OutEvent
  | adminOffline : String → OutEvent
  | webrtcOffer : String → Option String → OutEvent
  | webrtcAnswer : String → Option String → OutEvent
  | webrtcIce : String → Option String → OutEvent
deriving DecidableEq, Repr

/-- One emission: destination plus outbound event. -/
structure Msg where
  dest : Dest
  ev : OutEvent
deriving DecidableEq, Repr

/-- Whole-system state: the two store maps plus every connection's socket.data. -/
structure Sys where
  store : Store
  conns : List (String × ConnData)
deriving DecidableEq, Repr

/-- The socket.data of a connection; a socket that never stored anything has all fields absent. -/
def getConn (sys : Sys) (sid : String) : ConnData :=
  (mapGet sys.conns sid).getD ⟨none, none, none⟩

/-- ensureRoom(roomId): idempotently create the empty participant map and admin set. -/
def ensureRoom (st : Store) (roomId : String) : Store :=
  { rooms := if (mapGet st.rooms roomId).isSome then st.rooms else mapSet st.rooms roomId []
    roomAdmins := if (mapGet st.roomAdmins roomId).isSome then st.roomAdmins
      else mapSet st.roomAdmins roomId [] }

/-- Merge of { ...prev, ...patch, lastSeen: Date.now() }. -/
def mergePatch (prev : Participant) (patch : Patch) (now : Nat) : Participant :=
  { userId := patch.userId.orElse (fun _ => prev.userId)
    displayName := patch.displayName.orElse (fun _ => prev.displayName)
    streamAllowed := patch.streamAllowed.getD prev.streamAllowed
    lastSeen := now }

/-- upsertParticipant(roomId, socketId, patch): ensureRoom, then merge the patch
into the previous record (or a fresh empty one) and refresh lastSeen. -/
def upsertParticipant (st : Store) (roomId socketId : String) (patch : Patch) (now : Nat) :
    Store :=
  let st1 := ensureRoom st roomId
  let room := (mapGet st1.rooms roomId).getD []
  let prev := (mapGet room socketId).getD ⟨none, none, false, 0⟩
  { st1 with rooms := mapSet st1.rooms roomId (mapSet room socketId (mergePatch prev patch now)) }

/-- removeParticipant(roomId, socketId): delete the record if the room exists. -/
def removeParticipant (st : Store) (roomId socketId : String) : Store :=
  match mapGet st.rooms roomId with
  | none => st
  | some room => { st with rooms := mapSet st.rooms roomId (mapDelete room socketId) }

/-- listAdmins(roomId): ensureRoom, then the admin set as a list (with the
store after the ensureRoom side effect). -/
def listAdmins (st : Store) (roomId : String) : Store × List String :=
  let st1 := ensureRoom st roomId
  (st1, (mapGet st1.roomAdmins roomId).getD [])

/-- Comparator of the final sort: (a, b) => (b.lastSeen || 0) - (a.lastSeen || 0),
descending by lastSeen (lastSeen is always a Nat here, so || 0 is the identity):
a may precede b exactly when b.lastSeen ≤ a.lastSeen.  Array.prototype.sort is a
stable sort, modelled by the stable insertionSort (stability and sortedness
determine the output of a stable sort uniquely, so the choice of algorithm is
immaterial). -/
def lastSeenDesc (a b : Entry) : Prop := b.lastSeen ≤ a.lastSeen

instance : DecidableRel lastSeenDesc := fun a b => Nat.decLe b.lastSeen a.lastSeen

instance : IsTotal Entry lastSeenDesc := ⟨fun a b => Nat.le_total b.lastSeen a.lastSeen⟩

instance : IsTrans Entry lastSeenDesc := ⟨fun _ _ _ h1 h2 => Nat.le_trans h2 h1⟩

/-- listStreamEnabledParticipants(roomId): ensureRoom, then scan the room's
entries in insertion order, keep exactly the streamAllowed ones rendered as
Entry, and stably sort by lastSeen descending. -/
def listStreamEnabledParticipants (st : Store) (roomId : String) : Store × List Entry :=
  let st1 := ensureRoom st roomId
  let room := (mapGet st1.rooms roomId).getD []
  (st1,
    List.insertionSort lastSeenDesc
      (room.filterMap (fun kv =>
        if kv.2.streamAllowed then
          some ⟨kv.1, kv.2.userId, kv.2.displayName, kv.2.lastSeen⟩
        else none)))

/-- broadcastAdminUpdate(roomId): emit room:update with the freshly computed
stream-enabled list to the room's admin group. -/
def broadcastAdminUpdate (st : Store) (roomId : String) : Store × List Msg :=
  let res := listStreamEnabledParticipants st roomId
  (res.1, [⟨Dest.adminGroup roomId, OutEvent.roomUpdate roomId res.2⟩])

/-- Payload of the join event as destructured: { roomId, userId, displayName }. -/
structure JoinPayload where
  roomId : Option String
  userId : Option String
  displayName : Option String
deriving DecidableEq, Repr

/-- Payload of stream:consent as destructured: { roomId, userId, allow }. -/
structure ConsentPayload where
  roomId : Option String
  userId : Option String
  allow : Option Bool
deriving DecidableEq, Repr

/-- Payload of admin:subscribe as destructured: { roomId }. -/
structure SubscribePayload where
  roomId : Option String
deriving DecidableEq, Repr

/-- Payload of webrtc:offer and webrtc:answer as destructured: { to, sdp }
(the JS field named to is called toSid here, to being reserved in Lean). -/
structure SdpPayload where
  toSid : Option String
  sdp : Option String
deriving DecidableEq, Repr

/-- Payload of webrtc:ice as destructured: { to, candidate } (to renamed toSid). -/
structure IcePayload where
  toSid : Option String
  candidate : Option String
deriving DecidableEq, Repr

/-- Handler of the join event (object payload). -/
def handleJoin (now : Nat) (sys : Sys) (sid : String) (p : JoinPayload) : Sys × List Msg :=
  if !(truthy p.roomId) || !(truthy p.userId) then (sys, []) else
  let roomId := p.roomId.getD ""
  let userId := p.userId.getD ""
  let cd := getConn sys sid
  let conns1 := mapSet sys.conns sid
    { cd with role := some Role.participant, roomId := some roomId, userId := some userId }
  let st1 := ensureRoom sys.store roomId
  let st2 := upsertParticipant st1 roomId sid
    ⟨some userId, some (if truthy p.displayName then p.displayName.getD "" else userId), none⟩ now
  let resA := listAdmins st2 roomId
  let resB := broadcastAdminUpdate resA.1 roomId
  (⟨resB.1, conns1⟩,
    ⟨Dest.sock (some sid), OutEvent.adminList roomId resA.2⟩ :: resB.2)

/-- Handler of the ping heartbeat (no payload). -/
def handlePing (now : Nat) (sys : Sys) (sid : String) : Sys × List Msg :=
  let cd := getConn sys sid
  if !(truthy cd.roomId) then (sys, []) else
  let roomId := cd.roomId.getD ""
  let st1 := upsertParticipant sys.store roomId sid ⟨none, none, none⟩ now
  let resB := broadcastAdminUpdate st1 roomId
  (⟨resB.1, sys.conns⟩, resB.2)

/-- Handler of stream:consent (object payload).  Note that socket.data is not touched. -/
def handleConsent (now : Nat) (sys : Sys) (sid : String) (p : ConsentPayload) :
    Sys × List Msg :=
  if !(truthy p.roomId) || !(truthy p.userId) then (sys, []) else
  let roomId := p.roomId.getD ""
  let userId := p.userId.getD ""
  let st1 := upsertParticipant sys.store roomId sid
    ⟨some userId, none, some (bangbang p.allow)⟩ now
  let resA := listAdmins st1 roomId
  let resB := broadcastAdminUpdate resA.1 roomId
  (⟨resB.1, sys.conns⟩,
    ⟨Dest.sock (some sid), OutEvent.adminList roomId resA.2⟩ ::
      resB.2 ++
      [⟨Dest.adminGroup roomId,
        OutEvent.participantStreamAllowed sid userId (bangbang p.allow)⟩])

/-- Handler of admin:subscribe (object payload). -/
def handleAdminSubscribe (sys : Sys) (sid : String) (p : SubscribePayload) : Sys × List Msg :=
  if !(truthy p.roomId) then (sys, []) else
  let roomId := p.roomId.getD ""
  let cd := getConn sys sid
  let conns1 := mapSet sys.conns sid
    { cd with role := some Role.admin, roomId := some roomId }
  let st1 := ensureRoom sys.store roomId
  let st2 :=
    { st1 with
      roomAdmins := mapSet st1.roomAdmins roomId
        (setAdd ((mapGet st1.roomAdmins roomId).getD []) sid) }
  let resL := listStreamEnabledParticipants st2 roomId
  (⟨resL.1, conns1⟩,
    [⟨Dest.sock (some sid), OutEvent.roomUpdate roomId resL.2⟩,
     ⟨Dest.roomGroup roomId, OutEvent.adminOnline sid⟩])

/-- Handler of webrtc:offer: stateless relay of { from, sdp } to io.to(to). -/
def handleWebrtcOffer (sys : Sys) (sid : String) (p : SdpPayload) : Sys × List Msg :=
  (sys, [⟨Dest.sock p.toSid, OutEvent.webrtcOffer sid p.sdp⟩])

/-- Handler of webrtc:answer: stateless relay of { from, sdp } to io.to(to). -/
def handleWebrtcAnswer (sys : Sys) (sid : String) (p : SdpPayload) : Sys × List Msg :=
  (sys, [⟨Dest.sock p.toSid, OutEvent.webrtcAnswer sid p.sdp⟩])

/-- Handler of webrtc:ice: stateless relay of { from, candidate } to io.to(to). -/
def handleWebrtcIce (sys : Sys) (sid : String) (p : IcePayload) : Sys × List Msg :=
  (sys, [⟨Dest.sock p.toSid, OutEvent.webrtcIce sid p.candidate⟩])

/-- Handler of the disconnect event synthesized by the transport. -/
def handleDisconnect (sys : Sys) (sid : String) : Sys × List Msg :=
  let cd := getConn sys sid
  if !(truthy cd.roomId) then (sys, []) else
  let roomId := cd.roomId.getD ""
  let resAdm :=
    if cd.role = some Role.admin then
      let stA := ensureRoom sys.store roomId
      let stB :=
        { stA with
          roomAdmins := mapSet stA.roomAdmins roomId
            (setDelete ((mapGet stA.roomAdmins roomId).getD []) sid) }
      (stB, [(⟨Dest.roomGroup roomId, OutEvent.adminOffline sid⟩ : Msg)])
    else (sys.store, ([] : List Msg))
  let st2 :=
    if cd.role = some Role.participant then removeParticipant resAdm.1 roomId sid
    else resAdm.1
  let resB := broadcastAdminUpdate st2 roomId
  (⟨resB.1, sys.conns⟩, resAdm.2 ++ resB.2)

/-- Inbound events, tagged with the sending connection's socket id.
Payloads here are well-formed objects; the null-payload behaviour is
modelled separately by the on... dispatchers below. -/
inductive Event where
  | join : String → JoinPayload → Event
  | ping : String → Event
  | consent : String → ConsentPayload → Event
  | adminSubscribe : String → SubscribePayload → Event
  | webrtcOffer : String → SdpPayload → Event
  | webrtcAnswer : String → SdpPayload → Event
  | webrtcIce : String → IcePayload → Event
  | disconnect : String → Event
deriving DecidableEq, Repr

/-- Socket id of the connection an event comes from. -/
def actor : Event → String
  | Event.join sid _ => sid
  | Event.ping sid => sid
  | Event.consent sid _ => sid
  | Event.adminSubscribe sid _ => sid
  | Event.webrtcOffer sid _ => sid
  | Event.webrtcAnswer sid _ => sid
  | Event.webrtcIce sid _ => sid
  | Event.disconnect sid => sid

/-- One serialized event-handling step (now is the value Date.now() would return). -/
def step (now : Nat) (sys : Sys) : Event → Sys × List Msg
  | Event.join sid p => handleJoin now sys sid p
  | Event.ping sid => handlePing now sys sid
  | Event.consent sid p => handleConsent now sys sid p
  | Event.adminSubscribe sid p => handleAdminSubscribe sys sid p
  | Event.webrtcOffer sid p => handleWebrtcOffer sys sid p
  | Event.webrtcAnswer sid p => handleWebrtcAnswer sys sid p
  | Event.webrtcIce sid p => handleWebrtcIce sys sid p
  | Event.disconnect sid => handleDisconnect sys sid

/-- Run a list of timestamped events, accumulating every emission in order. -/
def runEvents (sys : Sys) : List (Nat × Event) → Sys × List Msg
  | [] => (sys, [])
  | te :: rest =>
    let res := step te.1 sys te.2
    let res2 := runEvents res.1 rest
    (res2.1, res.2 ++ res2.2)

/-- The state at process start: no rooms, no admins, no connection data. -/
def initSys : Sys := ⟨⟨[], []⟩, []⟩

/-- Participant entries of a room in scan order (empty if the room does not exist). -/
def roomEntries (rooms : List (String × List (String × Participant))) (roomId : String) :
    List (String × Participant) :=
  (mapGet rooms roomId).getD []

/-- Does the store hold a participant record keyed by this socket id in this room? -/
def hasRecord (st : Store) (roomId sid : String) : Bool :=
  (roomEntries st.rooms roomId).any (fun kv => kv.1 == sid)

/-- The admin set of a room as stored (empty if the room does not exist). -/
def adminSetOf (st : Store) (roomId : String) : List String :=
  (mapGet st.roomAdmins roomId).getD []

/-- Pre-sort scan of listStreamEnabledParticipants: the stream-enabled entries
in room insertion order. -/
def scanEntries (st : Store) (roomId : String) : List Entry :=
  (roomEntries st.rooms roomId).filterMap (fun kv =>
    if kv.2.streamAllowed then
      some ⟨kv.1, kv.2.userId, kv.2.displayName, kv.2.lastSeen⟩
    else none)

/-- Dispatcher of join at the JS level: a nullish (non-object) payload makes
the destructuring ({ roomId, userId, displayName }) throw a TypeError. -/
def onJoin (now : Nat) (sys : Sys) (sid : String) (p : Option JoinPayload) :
    Except String (Sys × List Msg) :=
  match p with
  | none => Except.error "TypeError: cannot destructure a nullish payload"
  | some q => Except.ok (handleJoin now sys sid q)

/-- Dispatcher of stream:consent at the JS level (nullish payload throws). -/
def onConsent (now : Nat) (sys : Sys) (sid : String) (p : Option ConsentPayload) :
    Except String (Sys × List Msg) :=
  match p with
  | none => Except.error "TypeError: cannot destructure a nullish payload"
  | some q => Except.ok (handleConsent now sys sid q)

/-- Dispatcher of admin:subscribe at the JS level (nullish payload throws). -/
def onAdminSubscribe (sys : Sys) (sid : String) (p : Option SubscribePayload) :
    Except String (Sys × List Msg) :=
  match p with
  | none => Except.error "TypeError: cannot destructure a nullish payload"
  | some q => Except.ok (handleAdminSubscribe sys sid q)

/-- Dispatcher of webrtc:offer at the JS level (nullish payload throws). -/
def onWebrtcOffer (sys : Sys) (sid : String) (p : Option SdpPayload) :
    Except String (Sys × List Msg) :=
  match p with
  | none => Except.error "TypeError: cannot destructure a nullish payload"
  | some q => Except.ok (handleWebrtcOffer sys sid q)

/-! Helper lemmas about the JS Map / Set model. -/

theorem mapGet_mapSet (m : List (String × α)) (k k' : String) (v : α) :
    mapGet (mapSet m k v) k' = if k' = k then some v else mapGet m k' := by
  induction m with
  | nil =>
    by_cases h : k' = k
    · subst h; simp [mapGet, mapSet]
    · have hb : (k == k') = false := beq_eq_false_iff_ne.mpr (fun hh => h hh.symm)
      simp [mapGet, mapSet, List.find?, hb, h]
  | cons kv rest ih =>
    by_cases hk : kv.1 = k
    · have hb : (kv.1 == k) = true := beq_iff_eq.mpr hk
      by_cases h' : k' = k
      · subst h'
        simp [mapGet, mapSet, List.find?, hb]
      · have hb2 : (k == k') = false := beq_eq_false_iff_ne.mpr (fun hh => h' hh.symm)
        have hb3 : (kv.1 == k') = false :=
          beq_eq_false_iff_ne.mpr (fun hh => h' (hh.symm.trans hk))
        simp [mapGet, mapSet, List.find?, hb, hb2, hb3, h']
    · have hb : (kv.1 == k) = false := beq_eq_false_iff_ne.mpr hk
      by_cases h2 : kv.1 = k'
      · have h3 : ¬ k' = k := fun hh => hk (h2.trans hh)
        have hb2 : (kv.1 == k') = true := beq_iff_eq.mpr h2
        simp [mapGet, mapSet, List.find?, hb, hb2, h3]
      · have hb2 : (kv.1 == k') = false := beq_eq_false_iff_ne.mpr h2
        simp only [mapSet, hb, Bool.false_eq_true, if_false]
        simp only [mapGet, List.find?, hb2] at ih ⊢
        exact ih

theorem mapGet_mapSet_self (m : List (String × α)) (k : String) (v : α) :
    mapGet (mapSet m k v) k = some v := by
  simp [mapGet_mapSet]

theorem any_key_mapSet (m : List (String × α)) (k s : String) (v : α) :
    (mapSet m k v).any (fun kv => kv.1 == s) =
      (m.any (fun kv => kv.1 == s) || (k == s)) := by
  induction m with
  | nil => simp [mapSet]
  | cons kv rest ih =>
    by_cases hk : kv.1 = k
    · by_cases hs : k = s <;>
        simp [mapSet, beq_iff_eq, hk, hs]
    · simp only [mapSet, beq_iff_eq, hk, if_false, List.any_cons, ih]
      cases hh : (kv.1 == s) <;> simp [Bool.or_assoc]

theorem length_mapSet_of_any (m : List (String × α)) (k : String) (v : α)
    (h : m.any (fun kv => kv.1 == k) = true) :
    (mapSet m k v).length = m.length := by
  induction m with
  | nil => simp at h
  | cons kv rest ih =>
    by_cases hk : kv.1 = k
    · have hb : (kv.1 == k) = true := beq_iff_eq.mpr hk
      simp [mapSet, hb]
    · have hb : (kv.1 == k) = false := beq_eq_false_iff_ne.mpr hk
      simp only [List.any_cons, hb, Bool.false_or] at h
      simp only [mapSet, hb, Bool.false_eq_true, if_false, List.length_cons]
      rw [ih h]

theorem any_key_mapSet_self (m : List (String × α)) (k : String) (v : α) :
    (mapSet m k v).any (fun kv => kv.1 == k) = true := by
  simp [any_key_mapSet]

theorem anyfalse_filter (m : List (String × α)) (f : String × α → Bool)
    (q : String × α → Bool) (h : m.any f = false) : (m.filter q).any f = false := by
  induction m with
  | nil => simp
  | cons kv rest ih =>
    simp only [List.any_cons, Bool.or_eq_false_iff] at h
    by_cases hq : q kv = true <;>
      simp [List.filter_cons, hq, h.1, ih h.2]

theorem mem_setAdd (s : List String) (x y : String) (h : x ∈ s) : x ∈ setAdd s y := by
  by_cases hy : y ∈ s <;> simp [setAdd, hy, h]

theorem mem_setDelete (s : List String) (x y : String) (h : x ∈ s) (hne : x ≠ y) :
    x ∈ setDelete s y := by
  simp [setDelete, List.mem_filter, h, hne]

/-! Helper lemmas about the store operations. -/

theorem roomEntries_ensureRoom (st : Store) (r' r : String) :
    roomEntries (ensureRoom st r').rooms r = roomEntries st.rooms r := by
  simp only [roomEntries, ensureRoom]
  by_cases h : (mapGet st.rooms r').isSome = true
  · rw [if_pos h]
  · rw [if_neg h, mapGet_mapSet]
    by_cases hr : r = r'
    · subst hr
      cases hm : mapGet st.rooms r with
      | none => simp
      | some x => rw [hm] at h; simp at h
    · rw [if_neg hr]

theorem adminSetOf_ensureRoom (st : Store) (r' r : String) :
    adminSetOf (ensureRoom st r') r = adminSetOf st r := by
  simp only [adminSetOf, ensureRoom]
  by_cases h : (mapGet st.roomAdmins r').isSome = true
  · rw [if_pos h]
  · rw [if_neg h, mapGet_mapSet]
    by_cases hr : r = r'
    · subst hr
      cases hm : mapGet st.roomAdmins r with
      | none => simp
      | some x => rw [hm] at h; simp at h
    · rw [if_neg hr]

theorem roomEntries_upsert_self (st : Store) (r sid : String) (patch : Patch) (now : Nat) :
    roomEntries (upsertParticipant st r sid patch now).rooms r =
      mapSet (roomEntries st.rooms r) sid
        (mergePatch ((mapGet (roomEntries st.rooms r) sid).getD ⟨none, none, false, 0⟩)
          patch now) := by
  have he := roomEntries_ensureRoom st r r
  simp only [upsertParticipant, roomEntries] at he ⊢
  rw [mapGet_mapSet]
  simp [he]

theorem roomEntries_upsert_ne (st : Store) (r' r sid : String) (patch : Patch) (now : Nat)
    (h : r' ≠ r) :
    roomEntries (upsertParticipant st r sid patch now).rooms r' = roomEntries st.rooms r' := by
  have he := roomEntries_ensureRoom st r r'
  simp only [upsertParticipant, roomEntries] at he ⊢
  rw [mapGet_mapSet]
  simp [h, he]

theorem adminSetOf_upsert (st : Store) (r' r sid : String) (patch : Patch) (now : Nat) :
    adminSetOf (upsertParticipant st r sid patch now) r' = adminSetOf st r' := by
  have he := adminSetOf_ensureRoom st r r'
  simp only [adminSetOf] at he
  simp only [upsertParticipant, adminSetOf]
  exact he

theorem adminSetOf_removeParticipant (st : Store) (r' r sid : String) :
    adminSetOf (removeParticipant st r sid) r' = adminSetOf st r' := by
  simp only [removeParticipant]
  cases mapGet st.rooms r <;> rfl

theorem hasRecord_ensureRoom (st : Store) (r' r sid : String) :
    hasRecord (ensureRoom st r') r sid = hasRecord st r sid := by
  simp [hasRecord, roomEntries_ensureRoom]

theorem hasRecord_upsert (st : Store) (r' r sid' sid : String) (patch : Patch) (now : Nat) :
    hasRecord (upsertParticipant st r sid' patch now) r' sid =
      (hasRecord st r' sid || (decide (r' = r) && (sid' == sid))) := by
  by_cases h : r' = r
  · subst h
    simp [hasRecord, roomEntries_upsert_self, any_key_mapSet]
  · simp [hasRecord, roomEntries_upsert_ne st r' r sid' patch now h, h]

theorem hasRecord_removeParticipant_false (st : Store) (r' r sid' sid : String)
    (h : hasRecord st r' sid = false) :
    hasRecord (removeParticipant st r sid') r' sid = false := by
  simp only [removeParticipant]
  cases hm : mapGet st.rooms r with
  | none => exact h
  | some room =>
    simp only [hasRecord, roomEntries] at h ⊢
    rw [mapGet_mapSet]
    by_cases hr : r' = r
    · subst hr
      simp only [if_pos rfl, Option.getD_some, mapDelete]
      rw [hm] at h
      exact anyfalse_filter room _ _ h
    · simp [hr, h]

theorem hasRecord_removeParticipant_self (st : Store) (r sid : String) :
    hasRecord (removeParticipant st r sid) r sid = false := by
  simp only [removeParticipant]
  cases hm : mapGet st.rooms r with
  | none =>
    simp [hasRecord, roomEntries, hm]
  | some room =>
    simp only [hasRecord, roomEntries, mapGet_mapSet_self, Option.getD_some, mapDelete]
    rw [List.any_eq_false]
    intro kv hkv
    rw [List.mem_filter] at hkv
    have h2 := hkv.2
    simp only [Bool.not_eq_eq_eq_not, Bool.not_true] at h2
    simp [h2]

/-! Helper lemmas about the derived stream-enabled view. -/

theorem lsep_fst (st : Store) (r : String) :
    (listStreamEnabledParticipants st r).1 = ensureRoom st r := rfl

theorem lsep_snd (st : Store) (r : String) :
    (listStreamEnabledParticipants st r).2 =
      List.insertionSort lastSeenDesc (scanEntries st r) := by
  have he := roomEntries_ensureRoom st r r
  simp only [roomEntries] at he
  simp only [listStreamEnabledParticipants, scanEntries, roomEntries]
  rw [he]

theorem mem_scanEntries (st : Store) (r : String) (e : Entry) :
    e ∈ scanEntries st r ↔
      ∃ sid p, (sid, p) ∈ roomEntries st.rooms r ∧ p.streamAllowed = true ∧
        e = ⟨sid, p.userId, p.displayName, p.lastSeen⟩ := by
  simp only [scanEntries, List.mem_filterMap]
  constructor
  · rintro ⟨⟨sid, p⟩, hmem, hf⟩
    dsimp only at hf
    by_cases hs : p.streamAllowed = true
    · refine ⟨sid, p, hmem, hs, ?_⟩
      rw [if_pos hs] at hf
      exact (Option.some.inj hf).symm
    · rw [if_neg hs] at hf
      cases hf
  · rintro ⟨sid, p, hmem, hs, he⟩
    refine ⟨(sid, p), hmem, ?_⟩
    dsimp only
    rw [if_pos hs, he]

theorem hasRecord_of_mem_scan (st : Store) (r : String) (e : Entry)
    (h : e ∈ scanEntries st r) : hasRecord st r e.socketId = true := by
  rw [mem_scanEntries] at h
  obtain ⟨sid, p, hmem, hs, he⟩ := h
  subst he
  simp only [hasRecord]
  rw [List.any_eq_true]
  exact ⟨(sid, p), hmem, by simp⟩

theorem socketId_mem_lsep (st : Store) (r : String) (e : Entry)
    (h : e ∈ (listStreamEnabledParticipants st r).2) : hasRecord st r e.socketId = true := by
  rw [lsep_snd, List.mem_insertionSort] at h
  exact hasRecord_of_mem_scan st r e h

theorem broadcastAdminUpdate_fst (st : Store) (r : String) :
    (broadcastAdminUpdate st r).1 = ensureRoom st r := rfl

theorem broadcastAdminUpdate_msgs (st : Store) (r : String) :
    (broadcastAdminUpdate st r).2 =
      [⟨Dest.adminGroup r, OutEvent.roomUpdate r (listStreamEnabledParticipants st r).2⟩] := rfl

theorem broadcast_no_sid (st : Store) (r' r sid : String)
    (h : hasRecord st r sid = false) :
    ∀ m ∈ (broadcastAdminUpdate st r').2, ∀ l, m.ev = OutEvent.roomUpdate r l →
      ∀ ent ∈ l, ent.socketId ≠ sid := by
  intro m hm l hev ent hent hcontra
  rw [broadcastAdminUpdate_msgs, List.mem_singleton] at hm
  subst hm
  simp only at hev
  obtain ⟨hr, hl⟩ := OutEvent.roomUpdate.inj hev
  rw [← hl] at hent
  have hrec := socketId_mem_lsep st r' ent hent
  rw [hcontra] at hrec
  rw [← hr] at h
  rw [h] at hrec
  cases hrec

/-! Claim theorems. -/

/-- C1: for every room R, the derived view listStreamEnabledParticipants(R) contains
exactly those participants of R whose streamAllowed flag is true, each rendered as
(socketId, userId, displayName, lastSeen), its contents do not depend on the room's
admin set, and participants with streamAllowed false (or absent) never appear. -/
theorem c1_streamEnabled_exact
    (rooms : List (String × List (String × Participant)))
    (admins admins' : List (String × List String)) (r : String) (e : Entry) :
    (e ∈ (listStreamEnabledParticipants ⟨rooms, admins⟩ r).2 ↔
      ∃ sid p, (sid, p) ∈ roomEntries rooms r ∧ p.streamAllowed = true ∧
        e = ⟨sid, p.userId, p.displayName, p.lastSeen⟩)
    ∧ (listStreamEnabledParticipants ⟨rooms, admins⟩ r).2 =
        (listStreamEnabledParticipants ⟨rooms, admins'⟩ r).2 := by
  constructor
  · rw [lsep_snd, List.mem_insertionSort]
    exact mem_scanEntries ⟨rooms, admins⟩ r e
  · rw [lsep_snd, lsep_snd]
    rfl

/-- C5: the sequence produced by listStreamEnabledParticipants is sorted by lastSeen
descending (any entry appearing before another has lastSeen at least as large, so of
two entries with lastSeen t1 < t2 the t2 one appears earlier), and ties are stable:
a pair already in comparator order in the underlying scan keeps its relative order. -/
theorem c5_sorted_stable
    (rooms : List (String × List (String × Participant)))
    (admins : List (String × List String)) (r : String) :
    ((listStreamEnabledParticipants ⟨rooms, admins⟩ r).2).Pairwise
        (fun a b => b.lastSeen ≤ a.lastSeen)
    ∧ ∀ a b : Entry, b.lastSeen ≤ a.lastSeen →
        List.Sublist [a, b] (scanEntries ⟨rooms, admins⟩ r) →
        List.Sublist [a, b] (listStreamEnabledParticipants ⟨rooms, admins⟩ r).2 := by
  constructor
  · rw [lsep_snd]
    exact List.sorted_insertionSort lastSeenDesc _
  · intro a b hle hsub
    rw [lsep_snd]
    exact List.pair_sublist_insertionSort hle hsub

/-- C5 witness: two tied stream-enabled participants keep their scan order in the output. -/
theorem c5_sorted_stable_witness :
    ((⟨"s2", some "u2", none, 5⟩ : Entry).lastSeen ≤
        (⟨"s1", some "u1", none, 5⟩ : Entry).lastSeen)
    ∧ List.Sublist [(⟨"s1", some "u1", none, 5⟩ : Entry), ⟨"s2", some "u2", none, 5⟩]
        (listStreamEnabledParticipants
          ⟨[("r", [("s1", ⟨some "u1", none, true, 5⟩), ("s2", ⟨some "u2", none, true, 5⟩)])],
            []⟩ "r").2 := by
  have hsub : List.Sublist [(⟨"s1", some "u1", none, 5⟩ : Entry), ⟨"s2", some "u2", none, 5⟩]
      (scanEntries
        ⟨[("r", [("s1", ⟨some "u1", none, true, 5⟩), ("s2", ⟨some "u2", none, true, 5⟩)])],
          []⟩ "r") := by
    have h : scanEntries
        ⟨[("r", [("s1", ⟨some "u1", none, true, 5⟩), ("s2", ⟨some "u2", none, true, 5⟩)])],
          []⟩ "r" =
        [⟨"s1", some "u1", none, 5⟩, ⟨"s2", some "u2", none, 5⟩] := rfl
    rw [h]
  exact ⟨by decide,
    (c5_sorted_stable
      [("r", [("s1", ⟨some "u1", none, true, 5⟩), ("s2", ⟨some "u2", none, true, 5⟩)])]
      [] "r").2 ⟨"s1", some "u1", none, 5⟩ ⟨"s2", some "u2", none, 5⟩ (by decide) hsub⟩

/-- C8: each webrtc relay event is a stateless pass-through: it emits exactly one
message of the same event type to the destination id of the payload carrying the
opaque payload plus the sender's id, and the whole system state (store, admin sets
and every connection's local state) is unchanged. -/
theorem c8_relay_stateless (now : Nat) (sys : Sys) (sid : String)
    (p : SdpPayload) (q : IcePayload) :
    step now sys (Event.webrtcOffer sid p) =
        (sys, [⟨Dest.sock p.toSid, OutEvent.webrtcOffer sid p.sdp⟩])
    ∧ step now sys (Event.webrtcAnswer sid p) =
        (sys, [⟨Dest.sock p.toSid, OutEvent.webrtcAnswer sid p.sdp⟩])
    ∧ step now sys (Event.webrtcIce sid q) =
        (sys, [⟨Dest.sock q.toSid, OutEvent.webrtcIce sid q.candidate⟩]) :=
  ⟨rfl, rfl, rfl⟩

/-- C9: listAdmins and listStreamEnabledParticipants are not read-only: querying a
room id not yet present creates that room's empty participant map and empty admin
set via ensureRoom, also on the broadcastAdminUpdate path. -/
theorem c9_query_creates_room (st : Store) (r : String)
    (h1 : mapGet st.rooms r = none) (h2 : mapGet st.roomAdmins r = none) :
    (mapGet (listAdmins st r).1.rooms r = some [] ∧
      mapGet (listAdmins st r).1.roomAdmins r = some []) ∧
    (mapGet (listStreamEnabledParticipants st r).1.rooms r = some [] ∧
      mapGet (listStreamEnabledParticipants st r).1.roomAdmins r = some []) ∧
    (mapGet (broadcastAdminUpdate st r).1.rooms r = some [] ∧
      mapGet (broadcastAdminUpdate st r).1.roomAdmins r = some []) := by
  have hroom : mapGet (ensureRoom st r).rooms r = some [] := by
    simp only [ensureRoom, h1]
    simp [mapGet_mapSet_self]
  have hadm : mapGet (ensureRoom st r).roomAdmins r = some [] := by
    simp only [ensureRoom, h2]
    simp [mapGet_mapSet_self]
  exact ⟨⟨hroom, hadm⟩, ⟨hroom, hadm⟩, ⟨hroom, hadm⟩⟩

/-- C9 witness: querying room r of the empty store creates it. -/
theorem c9_query_creates_room_witness :
    mapGet (⟨[], []⟩ : Store).rooms "r" = none ∧
    mapGet (⟨[], []⟩ : Store).roomAdmins "r" = none ∧
    ((mapGet (listAdmins ⟨[], []⟩ "r").1.rooms "r" = some [] ∧
      mapGet (listAdmins ⟨[], []⟩ "r").1.roomAdmins "r" = some []) ∧
    (mapGet (listStreamEnabledParticipants ⟨[], []⟩ "r").1.rooms "r" = some [] ∧
      mapGet (listStreamEnabledParticipants ⟨[], []⟩ "r").1.roomAdmins "r" = some []) ∧
    (mapGet (broadcastAdminUpdate ⟨[], []⟩ "r").1.rooms "r" = some [] ∧
      mapGet (broadcastAdminUpdate ⟨[], []⟩ "r").1.roomAdmins "r" = some [])) :=
  ⟨rfl, rfl, c9_query_creates_room ⟨[], []⟩ "r" rfl rfl⟩

theorem listAdmins_fst (st : Store) (r : String) :
    (listAdmins st r).1 = ensureRoom st r := rfl

theorem handleConsent_record (now : Nat) (sys : Sys) (sid r u : String) (ob : Option Bool)
    (hr : r ≠ "") (hu : u ≠ "") :
    (mapGet (roomEntries
        (handleConsent now sys sid ⟨some r, some u, ob⟩).1.store.rooms r) sid).map
      Participant.streamAllowed = some (bangbang ob) := by
  have ht : truthy (some r) = true := by simp [truthy, hr]
  have hut : truthy (some u) = true := by simp [truthy, hu]
  simp only [handleConsent, ht, hut, Bool.not_true, Bool.or_self, Bool.false_eq_true,
    if_false, broadcastAdminUpdate_fst, listAdmins_fst]
  simp only [roomEntries_ensureRoom, roomEntries_upsert_self, Option.getD_some,
    mapGet_mapSet_self]
  simp [mergePatch]

/-- C6: for a connection with non-empty roomId and userId, the stream:consent
sequence allow=true, allow=false, allow=true leaves the connection's Participant
record with streamAllowed true: the last toggle wins. -/
theorem c6_consent_last_write_wins (n1 n2 n3 : Nat) (sys : Sys) (sid r u : String)
    (hr : r ≠ "") (hu : u ≠ "") :
    (mapGet (roomEntries
        (runEvents sys
          [(n1, Event.consent sid ⟨some r, some u, some true⟩),
           (n2, Event.consent sid ⟨some r, some u, some false⟩),
           (n3, Event.consent sid ⟨some r, some u, some true⟩)]).1.store.rooms r) sid).map
      Participant.streamAllowed = some true := by
  simp only [runEvents, step]
  exact handleConsent_record n3 _ sid r u (some true) hr hu

/-- C6 witness: the toggle sequence on a fresh system settles to streamAllowed true. -/
theorem c6_consent_last_write_wins_witness :
    ("r" : String) ≠ "" ∧ ("u" : String) ≠ "" ∧
    (mapGet (roomEntries
        (runEvents initSys
          [(1, Event.consent "s1" ⟨some "r", some "u", some true⟩),
           (2, Event.consent "s1" ⟨some "r", some "u", some false⟩),
           (3, Event.consent "s1" ⟨some "r", some "u", some true⟩)]).1.store.rooms "r")
        "s1").map Participant.streamAllowed = some true :=
  ⟨by decide, by decide,
    c6_consent_last_write_wins 1 2 3 initSys "s1" "r" "u" (by decide) (by decide)⟩

theorem handleJoin_roomEntries (now : Nat) (sys : Sys) (sid : String) (p : JoinPayload)
    (r : String) (hroom : p.roomId.getD "" = r)
    (hr : truthy p.roomId = true) (hu : truthy p.userId = true) :
    roomEntries (handleJoin now sys sid p).1.store.rooms r =
      mapSet (roomEntries sys.store.rooms r) sid
        (mergePatch ((mapGet (roomEntries sys.store.rooms r) sid).getD ⟨none, none, false, 0⟩)
          ⟨some (p.userId.getD ""),
            some (if truthy p.displayName then p.displayName.getD "" else p.userId.getD ""),
            none⟩ now) := by
  simp only [handleJoin, hr, hu, Bool.not_true, Bool.or_self, Bool.false_eq_true,
    if_false, broadcastAdminUpdate_fst, listAdmins_fst, hroom]
  simp only [roomEntries_ensureRoom, roomEntries_upsert_self]

/-- C7: a second join with the same connection id into the same room overwrites the
Participant record in place: the room's participant count after the second join
equals the count after the first. -/
theorem c7_rejoin_no_duplicate (n1 n2 : Nat) (sys : Sys) (sid : String) (p1 p2 : JoinPayload)
    (h1r : truthy p1.roomId = true) (h1u : truthy p1.userId = true)
    (h2u : truthy p2.userId = true) (hsame : p2.roomId = p1.roomId) :
    (roomEntries
        (step n2 (step n1 sys (Event.join sid p1)).1 (Event.join sid p2)).1.store.rooms
        (p1.roomId.getD "")).length =
      (roomEntries (step n1 sys (Event.join sid p1)).1.store.rooms
        (p1.roomId.getD "")).length := by
  have h2r : truthy p2.roomId = true := by rw [hsame]; exact h1r
  have hh : p2.roomId.getD "" = p1.roomId.getD "" := by rw [hsame]
  simp only [step]
  rw [handleJoin_roomEntries n2 _ sid p2 _ hh h2r h2u]
  rw [handleJoin_roomEntries n1 sys sid p1 _ rfl h1r h1u]
  apply length_mapSet_of_any
  exact any_key_mapSet_self _ _ _

/-- C7 witness: joining twice with the same id keeps the participant count at one. -/
theorem c7_rejoin_no_duplicate_witness :
    truthy (some "r") = true ∧ truthy (some "u") = true ∧ truthy (some "u2") = true ∧
    (⟨some "r", some "u2", none⟩ : JoinPayload).roomId =
      (⟨some "r", some "u", none⟩ : JoinPayload).roomId ∧
    (roomEntries
        (step 2 (step 1 initSys (Event.join "s1" ⟨some "r", some "u", none⟩)).1
          (Event.join "s1" ⟨some "r", some "u2", none⟩)).1.store.rooms
        ((⟨some "r", some "u", none⟩ : JoinPayload).roomId.getD "")).length =
      (roomEntries (step 1 initSys (Event.join "s1" ⟨some "r", some "u", none⟩)).1.store.rooms
        ((⟨some "r", some "u", none⟩ : JoinPayload).roomId.getD "")).length :=
  ⟨by decide, by decide, by decide, rfl,
    c7_rejoin_no_duplicate 1 2 initSys "s1" ⟨some "r", some "u", none⟩
      ⟨some "r", some "u2", none⟩ (by decide) (by decide) (by decide) rfl⟩

/-- C10: stream:consent creates a Participant record keyed by the payload roomId but
never records that roomId in the connection's local state, so for a connection whose
only room-referencing event was stream:consent the disconnect handler finds no
roomId, mutates nothing, emits nothing, and the created record persists. -/
theorem c10_consent_orphan (now now' : Nat) (sys : Sys) (sid r u : String) (ob : Option Bool)
    (hr : r ≠ "") (hu : u ≠ "")
    (hconn : getConn sys sid = ⟨none, none, none⟩) :
    (step now sys (Event.consent sid ⟨some r, some u, ob⟩)).1.conns = sys.conns
    ∧ hasRecord (step now sys (Event.consent sid ⟨some r, some u, ob⟩)).1.store r sid = true
    ∧ step now' (step now sys (Event.consent sid ⟨some r, some u, ob⟩)).1
        (Event.disconnect sid) =
      ((step now sys (Event.consent sid ⟨some r, some u, ob⟩)).1, []) := by
  have ht : truthy (some r) = true := by simp [truthy, hr]
  have hut : truthy (some u) = true := by simp [truthy, hu]
  have hconns : (step now sys (Event.consent sid ⟨some r, some u, ob⟩)).1.conns = sys.conns := by
    simp only [step, handleConsent, ht, hut, Bool.not_true, Bool.or_self,
      Bool.false_eq_true, if_false]
  refine ⟨hconns, ?_, ?_⟩
  · simp only [step, handleConsent, ht, hut, Bool.not_true, Bool.or_self,
      Bool.false_eq_true, if_false, broadcastAdminUpdate_fst, listAdmins_fst]
    simp only [hasRecord_ensureRoom, hasRecord_upsert]
    simp
  · have hconns2 := hconns
    simp only [step] at hconns2
    have hcd : getConn (handleConsent now sys sid ⟨some r, some u, ob⟩).1 sid =
        ⟨none, none, none⟩ := by
      simp only [getConn]
      rw [hconns2]
      exact hconn
    simp [step, handleDisconnect, hcd, truthy]

/-- C10 witness: a consent-only connection on a fresh system leaves an orphan record. -/
theorem c10_consent_orphan_witness :
    ("r" : String) ≠ "" ∧ ("u" : String) ≠ "" ∧
    getConn initSys "s1" = ⟨none, none, none⟩ ∧
    ((step 1 initSys (Event.consent "s1" ⟨some "r", some "u", some true⟩)).1.conns =
        initSys.conns
    ∧ hasRecord (step 1 initSys
        (Event.consent "s1" ⟨some "r", some "u", some true⟩)).1.store "r" "s1" = true
    ∧ step 2 (step 1 initSys (Event.consent "s1" ⟨some "r", some "u", some true⟩)).1
        (Event.disconnect "s1") =
      ((step 1 initSys (Event.consent "s1" ⟨some "r", some "u", some true⟩)).1, [])) :=
  ⟨by decide, by decide, rfl,
    c10_consent_orphan 1 2 initSys "s1" "r" "u" (some true) (by decide) (by decide) rfl⟩

theorem adminSetOf_handleJoin (now : Nat) (sys : Sys) (sid' : String) (p : JoinPayload)
    (r : String) :
    adminSetOf (handleJoin now sys sid' p).1.store r = adminSetOf sys.store r := by
  cases hg : (!(truthy p.roomId) || !(truthy p.userId)) with
  | true => simp [handleJoin, hg]
  | false =>
    simp only [handleJoin, hg, Bool.false_eq_true, if_false, broadcastAdminUpdate_fst,
      listAdmins_fst]
    simp only [adminSetOf_ensureRoom, adminSetOf_upsert]

theorem adminSetOf_handlePing (now : Nat) (sys : Sys) (sid' : String) (r : String) :
    adminSetOf (handlePing now sys sid').1.store r = adminSetOf sys.store r := by
  cases hg : truthy (getConn sys sid').roomId with
  | false => simp [handlePing, hg]
  | true =>
    simp only [handlePing, hg, Bool.not_true, Bool.false_eq_true, if_false,
      broadcastAdminUpdate_fst]
    simp only [adminSetOf_ensureRoom, adminSetOf_upsert]

theorem adminSetOf_handleConsent (now : Nat) (sys : Sys) (sid' : String) (p : ConsentPayload)
    (r : String) :
    adminSetOf (handleConsent now sys sid' p).1.store r = adminSetOf sys.store r := by
  cases hg : (!(truthy p.roomId) || !(truthy p.userId)) with
  | true => simp [handleConsent, hg]
  | false =>
    simp only [handleConsent, hg, Bool.false_eq_true, if_false, broadcastAdminUpdate_fst,
      listAdmins_fst]
    simp only [adminSetOf_ensureRoom, adminSetOf_upsert]

theorem adminSetOf_ensureRoom_getD (st : Store) (r' r : String) :
    (mapGet (ensureRoom st r').roomAdmins r).getD [] = adminSetOf st r := by
  have := adminSetOf_ensureRoom st r' r
  simpa [adminSetOf] using this

theorem adminSetOf_handleAdminSubscribe (sys : Sys) (sid' x : String) (p : SubscribePayload)
    (r : String) (hmem : x ∈ adminSetOf sys.store r) :
    x ∈ adminSetOf (handleAdminSubscribe sys sid' p).1.store r := by
  cases hg : truthy p.roomId with
  | false => simpa [handleAdminSubscribe, hg] using hmem
  | true =>
    simp only [handleAdminSubscribe, hg, Bool.not_true, Bool.false_eq_true, if_false,
      lsep_fst]
    rw [adminSetOf_ensureRoom]
    simp only [adminSetOf]
    rw [mapGet_mapSet]
    by_cases hr : r = p.roomId.getD ""
    · rw [if_pos hr, Option.getD_some, adminSetOf_ensureRoom_getD]
      rw [← hr]
      exact mem_setAdd _ _ _ hmem
    · rw [if_neg hr, adminSetOf_ensureRoom_getD]
      exact hmem

theorem adminSetOf_handleDisconnect (sys : Sys) (sid' x : String) (r : String)
    (hmem : x ∈ adminSetOf sys.store r) (hx : x ≠ sid') :
    x ∈ adminSetOf (handleDisconnect sys sid').1.store r := by
  cases hg : truthy (getConn sys sid').roomId with
  | false => simpa [handleDisconnect, hg] using hmem
  | true =>
    simp only [handleDisconnect, hg, Bool.not_true, Bool.false_eq_true, if_false,
      broadcastAdminUpdate_fst]
    rw [adminSetOf_ensureRoom]
    cases hrole : (getConn sys sid').role with
    | none =>
      simpa using hmem
    | some role =>
      cases role with
      | participant =>
        simp only [reduceCtorEq, Option.some.injEq, if_false, if_true, reduceIte]
        rw [adminSetOf_removeParticipant]
        exact hmem
      | admin =>
        simp only [reduceCtorEq, Option.some.injEq, if_false, if_true, reduceIte]
        simp only [adminSetOf]
        rw [mapGet_mapSet]
        by_cases hr : r = (getConn sys sid').roomId.getD ""
        · rw [if_pos hr, Option.getD_some, adminSetOf_ensureRoom_getD]
          rw [← hr]
          exact mem_setDelete _ _ _ hmem hx
        · rw [if_neg hr, adminSetOf_ensureRoom_getD]
          exact hmem

/-- C4: once a connection id is in a room's admin set, no event other than that
connection's own disconnect removes it: every join, heartbeat, consent, relay,
admin:subscribe step (from any connection) and every other connection's disconnect
preserves its membership; there is no unsubscribe operation. -/
theorem c4_admin_until_disconnect (now : Nat) (sys : Sys) (e : Event) (sid r : String)
    (hmem : sid ∈ adminSetOf sys.store r) (hne : e ≠ Event.disconnect sid) :
    sid ∈ adminSetOf (step now sys e).1.store r := by
  cases e with
  | join sid' p =>
    rw [step, adminSetOf_handleJoin]
    exact hmem
  | ping sid' =>
    rw [step, adminSetOf_handlePing]
    exact hmem
  | consent sid' p =>
    rw [step, adminSetOf_handleConsent]
    exact hmem
  | adminSubscribe sid' p =>
    exact adminSetOf_handleAdminSubscribe sys sid' sid p r hmem
  | webrtcOffer sid' p => exact hmem
  | webrtcAnswer sid' p => exact hmem
  | webrtcIce sid' p => exact hmem
  | disconnect sid' =>
    have hx : sid ≠ sid' := by
      intro hh
      exact hne (by rw [hh])
    exact adminSetOf_handleDisconnect sys sid' sid r hmem hx

/-- C4 witness: an admin of room r stays in the admin set across another
connection's join. -/
theorem c4_admin_until_disconnect_witness :
    "a1" ∈ adminSetOf (⟨⟨[("r", [])], [("r", ["a1"])]⟩, []⟩ : Sys).store "r" ∧
    Event.join "s1" ⟨some "r", some "u", none⟩ ≠ Event.disconnect "a1" ∧
    "a1" ∈ adminSetOf
      (step 7 (⟨⟨[("r", [])], [("r", ["a1"])]⟩, []⟩ : Sys)
        (Event.join "s1" ⟨some "r", some "u", none⟩)).1.store "r" :=
  ⟨by decide, by decide,
    c4_admin_until_disconnect 7 (⟨⟨[("r", [])], [("r", ["a1"])]⟩, []⟩ : Sys)
      (Event.join "s1" ⟨some "r", some "u", none⟩) "a1" "r" (by decide) (by decide)⟩

/-- C3 counterexample: malformed inputs are not always silent no-ops.  A join
event whose payload is not an object (null or undefined) makes the handler's
parameter destructuring throw a TypeError instead of being ignored, and a
webrtc:offer payload missing its required field to still produces an outbound
emission (addressed to the undefined destination). -/
theorem c3_counterexample :
    onJoin 1 initSys "s1" none =
      Except.error "TypeError: cannot destructure a nullish payload"
    ∧ (handleWebrtcOffer initSys "s1" ⟨none, some "x"⟩).2 =
      [⟨Dest.sock none, OutEvent.webrtcOffer "s1" (some "x")⟩] :=
  ⟨rfl, rfl⟩

/-- C3 amended: for object payloads with missing (or empty) required fields the
join, stream:consent and admin:subscribe handlers are silent no-ops (state
unchanged, nothing emitted), as is heartbeat without a joined room; the webrtc
relay handlers never touch the state but always emit the single forwarded
message even when the required destination field is missing; and a payload that
is not an object makes the destructuring handlers throw. -/
theorem c3_amended :
    (∀ (now : Nat) (sys : Sys) (sid : String) (p : JoinPayload),
      truthy p.roomId = false ∨ truthy p.userId = false →
        handleJoin now sys sid p = (sys, []))
    ∧ (∀ (now : Nat) (sys : Sys) (sid : String) (p : ConsentPayload),
      truthy p.roomId = false ∨ truthy p.userId = false →
        handleConsent now sys sid p = (sys, []))
    ∧ (∀ (sys : Sys) (sid : String) (p : SubscribePayload),
      truthy p.roomId = false → handleAdminSubscribe sys sid p = (sys, []))
    ∧ (∀ (now : Nat) (sys : Sys) (sid : String),
      truthy (getConn sys sid).roomId = false → handlePing now sys sid = (sys, []))
    ∧ (∀ (sys : Sys) (sid : String) (p : SdpPayload),
      (handleWebrtcOffer sys sid p).1 = sys ∧
      (handleWebrtcOffer sys sid p).2 =
        [⟨Dest.sock p.toSid, OutEvent.webrtcOffer sid p.sdp⟩] ∧
      (handleWebrtcAnswer sys sid p).1 = sys)
    ∧ (∀ (sys : Sys) (sid : String) (p : IcePayload), (handleWebrtcIce sys sid p).1 = sys)
    ∧ (∀ (now : Nat) (sys : Sys) (sid : String),
      (onJoin now sys sid none).isOk = false ∧ (onConsent now sys sid none).isOk = false ∧
      (onAdminSubscribe sys sid none).isOk = false ∧ (onWebrtcOffer sys sid none).isOk = false) := by
  refine ⟨?_, ?_, ?_, ?_, ?_, ?_, ?_⟩
  · rintro now sys sid p (h | h) <;> simp [handleJoin, h]
  · rintro now sys sid p (h | h) <;> simp [handleConsent, h]
  · intro sys sid p h
    simp [handleAdminSubscribe, h]
  · intro now sys sid h
    simp [handlePing, h]
  · exact fun sys sid p => ⟨rfl, rfl, rfl⟩
  · exact fun sys sid p => rfl
  · exact fun now sys sid => ⟨rfl, rfl, rfl, rfl⟩

/-- C3 amended witness: a join with an empty roomId on the fresh system is a no-op. -/
theorem c3_amended_witness :
    (truthy (some "") = false ∨ truthy (some "u") = false) ∧
    handleJoin 1 initSys "s1" ⟨some "", some "u", none⟩ = (initSys, []) :=
  ⟨Or.inl (by decide),
    c3_amended.1 1 initSys "s1" ⟨some "", some "u", none⟩ (Or.inl (by decide))⟩

theorem hasRecord_setRoomAdmins (st : Store) (adm : List (String × List String))
    (r sid : String) :
    hasRecord ⟨st.rooms, adm⟩ r sid = hasRecord st r sid := rfl

theorem step_no_sid (now : Nat) (sys : Sys) (e : Event) (r sid : String)
    (hact : actor e ≠ sid) (hrec : hasRecord sys.store r sid = false) :
    hasRecord (step now sys e).1.store r sid = false ∧
    ∀ m ∈ (step now sys e).2, ∀ l, m.ev = OutEvent.roomUpdate r l →
      ∀ ent ∈ l, ent.socketId ≠ sid := by
  cases e with
  | join sid' p =>
    have hsid : sid' ≠ sid := hact
    cases hg : (!(truthy p.roomId) || !(truthy p.userId)) with
    | true =>
      refine ⟨by simpa [step, handleJoin, hg] using hrec, by simp [step, handleJoin, hg]⟩
    | false =>
      have hrec2 : hasRecord (upsertParticipant (ensureRoom sys.store (p.roomId.getD ""))
          (p.roomId.getD "") sid' ⟨some (p.userId.getD ""),
            some (if truthy p.displayName = true then p.displayName.getD ""
              else p.userId.getD ""), none⟩ now) r sid = false := by
        rw [hasRecord_upsert, hasRecord_ensureRoom, hrec]
        simp [hsid]
      constructor
      · simp only [step, handleJoin, hg, Bool.false_eq_true, if_false,
          broadcastAdminUpdate_fst, listAdmins_fst]
        simp only [hasRecord_ensureRoom]
        exact hrec2
      · simp only [step, handleJoin, hg, Bool.false_eq_true, if_false]
        intro m hm l hev ent hent
        rcases List.mem_cons.mp hm with rfl | hm2
        · simp at hev
        · refine broadcast_no_sid _ _ r sid ?_ m hm2 l hev ent hent
          rw [listAdmins_fst, hasRecord_ensureRoom]
          exact hrec2
  | ping sid' =>
    have hsid : sid' ≠ sid := hact
    cases hg : truthy (getConn sys sid').roomId with
    | false =>
      refine ⟨by simpa [step, handlePing, hg] using hrec, by simp [step, handlePing, hg]⟩
    | true =>
      have hrec1 : hasRecord (upsertParticipant sys.store
          ((getConn sys sid').roomId.getD "") sid' ⟨none, none, none⟩ now) r sid = false := by
        rw [hasRecord_upsert, hrec]
        simp [hsid]
      constructor
      · simp only [step, handlePing, hg, Bool.not_true, Bool.false_eq_true, if_false,
          broadcastAdminUpdate_fst]
        simp only [hasRecord_ensureRoom]
        exact hrec1
      · simp only [step, handlePing, hg, Bool.not_true, Bool.false_eq_true, if_false]
        intro m hm l hev ent hent
        exact broadcast_no_sid _ _ r sid hrec1 m hm l hev ent hent
  | consent sid' p =>
    have hsid : sid' ≠ sid := hact
    cases hg : (!(truthy p.roomId) || !(truthy p.userId)) with
    | true =>
      refine ⟨by simpa [step, handleConsent, hg] using hrec,
        by simp [step, handleConsent, hg]⟩
    | false =>
      have hrec1 : hasRecord (upsertParticipant sys.store (p.roomId.getD "") sid'
          ⟨some (p.userId.getD ""), none, some (bangbang p.allow)⟩ now) r sid = false := by
        rw [hasRecord_upsert, hrec]
        simp [hsid]
      constructor
      · simp only [step, handleConsent, hg, Bool.false_eq_true, if_false,
          broadcastAdminUpdate_fst, listAdmins_fst]
        simp only [hasRecord_ensureRoom]
        exact hrec1
      · simp only [step, handleConsent, hg, Bool.false_eq_true, if_false]
        intro m hm l hev ent hent
        rcases List.mem_cons.mp hm with rfl | hm2
        · simp at hev
        · rcases List.mem_append.mp hm2 with hm3 | hm4
          · refine broadcast_no_sid _ _ r sid ?_ m hm3 l hev ent hent
            rw [listAdmins_fst, hasRecord_ensureRoom]
            exact hrec1
          · rcases List.mem_singleton.mp hm4 with rfl
            simp at hev
  | adminSubscribe sid' p =>
    cases hg : truthy p.roomId with
    | false =>
      refine ⟨by simpa [step, handleAdminSubscribe, hg] using hrec,
        by simp [step, handleAdminSubscribe, hg]⟩
    | true =>
      constructor
      · simp only [step, handleAdminSubscribe, hg, Bool.not_true, Bool.false_eq_true,
          if_false, lsep_fst]
        rw [hasRecord_ensureRoom, hasRecord_setRoomAdmins, hasRecord_ensureRoom]
        exact hrec
      · simp only [step, handleAdminSubscribe, hg, Bool.not_true, Bool.false_eq_true,
          if_false]
        intro m hm l hev ent hent
        rcases List.mem_cons.mp hm with rfl | hm2
        · simp only at hev
          obtain ⟨hr', hl⟩ := OutEvent.roomUpdate.inj hev
          rw [← hl] at hent
          intro hcontra
          have hmm := socketId_mem_lsep _ (p.roomId.getD "") ent hent
          rw [hcontra, hr'] at hmm
          rw [hasRecord_setRoomAdmins, hasRecord_ensureRoom] at hmm
          rw [hrec] at hmm
          simp at hmm
        · rcases List.mem_singleton.mp hm2 with rfl
          simp at hev
  | webrtcOffer sid' p =>
    refine ⟨hrec, ?_⟩
    intro m hm l hev ent hent
    rcases List.mem_singleton.mp hm with rfl
    simp at hev
  | webrtcAnswer sid' p =>
    refine ⟨hrec, ?_⟩
    intro m hm l hev ent hent
    rcases List.mem_singleton.mp hm with rfl
    simp at hev
  | webrtcIce sid' p =>
    refine ⟨hrec, ?_⟩
    intro m hm l hev ent hent
    rcases List.mem_singleton.mp hm with rfl
    simp at hev
  | disconnect sid' =>
    have hsid : sid' ≠ sid := hact
    cases hg : truthy (getConn sys sid').roomId with
    | false =>
      refine ⟨by simpa [step, handleDisconnect, hg] using hrec,
        by simp [step, handleDisconnect, hg]⟩
    | true =>
      simp only [step, handleDisconnect, hg, Bool.not_true, Bool.false_eq_true, if_false,
        broadcastAdminUpdate_fst]
      cases hrole : (getConn sys sid').role with
      | none =>
        simp only [reduceCtorEq, if_false]
        constructor
        · rw [hasRecord_ensureRoom]
          exact hrec
        · intro m hm l hev ent hent
          rw [List.nil_append] at hm
          exact broadcast_no_sid _ _ r sid hrec m hm l hev ent hent
      | some role =>
        cases role with
        | participant =>
          simp only [reduceCtorEq, Option.some.injEq, if_false, if_true, reduceIte]
          have hst2 : hasRecord (removeParticipant sys.store
              ((getConn sys sid').roomId.getD "") sid') r sid = false :=
            hasRecord_removeParticipant_false sys.store r _ sid' sid hrec
          constructor
          · rw [hasRecord_ensureRoom]
            exact hst2
          · intro m hm l hev ent hent
            rw [List.nil_append] at hm
            exact broadcast_no_sid _ _ r sid hst2 m hm l hev ent hent
        | admin =>
          simp only [reduceCtorEq, Option.some.injEq, if_false, if_true, reduceIte]
          constructor
          · rw [hasRecord_ensureRoom, hasRecord_setRoomAdmins, hasRecord_ensureRoom]
            exact hrec
          · intro m hm l hev ent hent
            rcases List.mem_cons.mp hm with rfl | hm2
            · simp at hev
            · refine broadcast_no_sid _ _ r sid ?_ m hm2 l hev ent hent
              rw [hasRecord_setRoomAdmins, hasRecord_ensureRoom]
              exact hrec

theorem runEvents_no_sid (sys : Sys) (evs : List (Nat × Event)) (r sid : String)
    (hact : ∀ te ∈ evs, actor te.2 ≠ sid)
    (hrec : hasRecord sys.store r sid = false) :
    hasRecord (runEvents sys evs).1.store r sid = false ∧
    ∀ m ∈ (runEvents sys evs).2, ∀ l, m.ev = OutEvent.roomUpdate r l →
      ∀ ent ∈ l, ent.socketId ≠ sid := by
  induction evs generalizing sys with
  | nil => exact ⟨hrec, by simp [runEvents]⟩
  | cons te rest ih =>
    have h1 := step_no_sid te.1 sys te.2 r sid (hact te (List.mem_cons_self te rest)) hrec
    have h2 := ih (step te.1 sys te.2).1 (fun x hx => hact x (List.mem_cons_of_mem te hx))
      h1.1
    constructor
    · simpa [runEvents] using h2.1
    · simp only [runEvents]
      intro m hm l hev ent hent
      rcases List.mem_append.mp hm with hm1 | hm2
      · exact h1.2 m hm1 l hev ent hent
      · exact h2.2 m hm2 l hev ent hent

theorem disconnect_removes (sys : Sys) (sid r : String)
    (hrole : (getConn sys sid).role = some Role.participant)
    (hroom : (getConn sys sid).roomId = some r) (hr : r ≠ "") :
    hasRecord (handleDisconnect sys sid).1.store r sid = false ∧
    ∀ m ∈ (handleDisconnect sys sid).2, ∀ l, m.ev = OutEvent.roomUpdate r l →
      ∀ ent ∈ l, ent.socketId ≠ sid := by
  have hg : truthy (getConn sys sid).roomId = true := by
    rw [hroom]
    simp [truthy, hr]
  have hgd : (getConn sys sid).roomId.getD "" = r := by rw [hroom]; rfl
  simp only [handleDisconnect, hg, Bool.not_true, Bool.false_eq_true, if_false,
    broadcastAdminUpdate_fst, hrole, hgd]
  simp only [reduceCtorEq, Option.some.injEq, if_false, if_true, reduceIte]
  have hst2 : hasRecord (removeParticipant sys.store r sid) r sid = false :=
    hasRecord_removeParticipant_self sys.store r sid
  constructor
  · rw [hasRecord_ensureRoom]
    exact hst2
  · intro m hm l hev ent hent
    rw [List.nil_append] at hm
    exact broadcast_no_sid _ _ r sid hst2 m hm l hev ent hent

/-- C2 amended: for a connection whose role label at disconnect is Participant and
whose recorded roomId is r, processing the disconnect removes its Participant record
from room r and its entry appears neither in the disconnect's own admin broadcast
for r nor in any room:update for r emitted while processing any further events of
other connections (the record stays absent).  (As the counterexample shows, the
original claim fails for records the connection left in other rooms via
stream:consent, or left anywhere when its role label had been switched to Admin by
admin:subscribe before the disconnect.) -/
theorem c2_amended (now : Nat) (sys : Sys) (sid r : String) (evs : List (Nat × Event))
    (hrole : (getConn sys sid).role = some Role.participant)
    (hroom : (getConn sys sid).roomId = some r) (hr : r ≠ "")
    (hevs : ∀ te ∈ evs, actor te.2 ≠ sid) :
    (∀ m ∈ (step now sys (Event.disconnect sid)).2,
      ∀ l, m.ev = OutEvent.roomUpdate r l → ∀ ent ∈ l, ent.socketId ≠ sid)
    ∧ (∀ m ∈ (runEvents (step now sys (Event.disconnect sid)).1 evs).2,
      ∀ l, m.ev = OutEvent.roomUpdate r l → ∀ ent ∈ l, ent.socketId ≠ sid)
    ∧ hasRecord (runEvents (step now sys (Event.disconnect sid)).1 evs).1.store r sid
      = false := by
  have hd := disconnect_removes sys sid r hrole hroom hr
  have hrun := runEvents_no_sid (step now sys (Event.disconnect sid)).1 evs r sid hevs
    (by simpa [step] using hd.1)
  exact ⟨by simpa [step] using hd.2, hrun.2, hrun.1⟩

/-- C2 amended witness: a participant that joined room r and disconnects stays out
of all later room:update broadcasts for r triggered by another connection. -/
theorem c2_amended_witness :
    (getConn (step 1 initSys (Event.join "s1" ⟨some "r", some "u", none⟩)).1 "s1").role =
      some Role.participant ∧
    (getConn (step 1 initSys (Event.join "s1" ⟨some "r", some "u", none⟩)).1 "s1").roomId =
      some "r" ∧
    ("r" : String) ≠ "" ∧
    (∀ te ∈ [((5 : Nat), Event.adminSubscribe "s2" ⟨some "r"⟩)], actor te.2 ≠ "s1") ∧
    ((∀ m ∈ (step 4 (step 1 initSys (Event.join "s1" ⟨some "r", some "u", none⟩)).1
        (Event.disconnect "s1")).2,
      ∀ l, m.ev = OutEvent.roomUpdate "r" l → ∀ ent ∈ l, ent.socketId ≠ "s1")
    ∧ (∀ m ∈ (runEvents (step 4 (step 1 initSys
          (Event.join "s1" ⟨some "r", some "u", none⟩)).1 (Event.disconnect "s1")).1
        [((5 : Nat), Event.adminSubscribe "s2" ⟨some "r"⟩)]).2,
      ∀ l, m.ev = OutEvent.roomUpdate "r" l → ∀ ent ∈ l, ent.socketId ≠ "s1")
    ∧ hasRecord (runEvents (step 4 (step 1 initSys
          (Event.join "s1" ⟨some "r", some "u", none⟩)).1 (Event.disconnect "s1")).1
        [((5 : Nat), Event.adminSubscribe "s2" ⟨some "r"⟩)]).1.store "r" "s1" = false) :=
  ⟨by decide, by decide, by decide, by decide,
    c2_amended 4 (step 1 initSys (Event.join "s1" ⟨some "r", some "u", none⟩)).1 "s1" "r"
      [((5 : Nat), Event.adminSubscribe "s2" ⟨some "r"⟩)]
      (by decide) (by decide) (by decide) (by decide)⟩

/-- C2 counterexample: the connection s1 joins room r, consents, then subscribes as
admin (its role label becomes Admin) and disconnects; it held a Participant record
in r at disconnect time, yet a room:update for r emitted afterwards (to the freshly
subscribing admin s2) still contains an entry with socketId s1. -/
theorem c2_counterexample :
    hasRecord (runEvents initSys
      [(1, Event.join "s1" ⟨some "r", some "u", none⟩),
       (2, Event.consent "s1" ⟨some "r", some "u", some true⟩),
       (3, Event.adminSubscribe "s1" ⟨some "r"⟩)]).1.store "r" "s1" = true
    ∧ (⟨Dest.sock (some "s2"),
        OutEvent.roomUpdate "r" [⟨"s1", some "u", some "u", 2⟩]⟩ : Msg) ∈
      (runEvents initSys
        [(1, Event.join "s1" ⟨some "r", some "u", none⟩),
         (2, Event.consent "s1" ⟨some "r", some "u", some true⟩),
         (3, Event.adminSubscribe "s1" ⟨some "r"⟩),
         (4, Event.disconnect "s1"),
         (5, Event.adminSubscribe "s2" ⟨some "r"⟩)]).2 := by
  exact ⟨by decide, by decide⟩

end Server
